import Mathlib

/-!
# Verification of the calendar-tui view-state core

A shallow embedding of the view-state and list-virtualization engine of the
`calendar-tui` repository (`src/app.rs`, `src/components/event_form.rs`,
`src/components/day_view.rs`), together with models of its external
collaborators (the `chrono` date library and the calendar data source),
and proofs of the specification's claims about it.

Machine integers (`u32`, `i32`, `usize`) are modelled as `Nat`/`Int`;
none of the embedded arithmetic can overflow in the source's value ranges.
Fallible collaborator calls are modelled with `Except String`.
-/

namespace CalTui

/-- Terminal color (`ratatui::style::Color`), as used by the data model.
Only identity matters to the core; the core never inspects components. -/
inductive RColor where
  | white
  | rgb (r g b : Nat)
deriving DecidableEq, Repr

/-- A calendar date, the (year, month, day) view of `chrono::NaiveDate`:
proleptic Gregorian year, month 1–12, day 1–31. -/
structure Date where
  year : Int
  month : Nat
  day : Nat
deriving DecidableEq, Repr

/-- A local datetime (`chrono::DateTime<Local>`): a calendar date plus
seconds within the day.  With the fixed local offset of a single run,
chronological (instant) order coincides with lexicographic order on
(date, seconds), which is how comparisons are modelled. -/
structure DateTimeL where
  date : Date
  secs : Nat
deriving DecidableEq, Repr

/-- A wall-clock time of day (`chrono::NaiveTime`, to minute precision as
used by the event form). -/
structure TimeO where
  hour : Nat
  minute : Nat
deriving DecidableEq, Repr

/-- Rust `CalendarInfo` from `src/calendar/calendar.rs`. -/
structure CalendarInfo where
  id : String
  title : String
  color : RColor
  source : String
deriving DecidableEq, Repr

/-- Rust `CalendarEvent` from `src/calendar/event.rs`. -/
structure CalendarEvent where
  id : String
  title : String
  start : DateTimeL
  stop : DateTimeL
  isAllDay : Bool
  calendarName : String
  calendarColor : RColor
  location : Option String
  notes : Option String
deriving DecidableEq, Repr

/-- Rust `Reminder` from `src/calendar/reminder.rs`. -/
structure Reminder where
  id : String
  title : String
  isCompleted : Bool
  dueDate : Option DateTimeL
  calendarName : String
  calendarColor : RColor
  priority : Nat
deriving DecidableEq, Repr

/-- Rust `DayAction` from `src/app.rs`: what kind of item is at a given scroll
position in the day view. -/
inductive DayAction where
  | none
  | event (i : Nat)
  | reminder (i : Nat)
deriving DecidableEq, Repr

/-- Rust `ViewMode` from `src/app.rs`. -/
inductive ViewMode where
  | month
  | week
  | day
deriving DecidableEq, Repr

/-- Rust `InputMode` from `src/app.rs`. -/
inductive InputMode where
  | normal
  | form
  | reminders
deriving DecidableEq, Repr

/-! ## The chrono collaborator: Gregorian date arithmetic

`chrono::NaiveDate` is an external library.  It is modelled here by a day
count (rata die) computed from (year, month, day); date subtraction
(`signed_duration_since(..).num_days()`) is the difference of day counts.
-/

/-- Gregorian leap-year test, as in chrono:
`year % 4 == 0 && (year % 100 != 0 || year % 400 == 0)`. -/
def isLeap (y : Int) : Bool :=
  y % 4 == 0 && (y % 100 != 0 || y % 400 == 0)

/-- Days strictly before month `m` (1–12) in a non-leap year. -/
def daysBeforeMonth (m : Nat) : Nat :=
  match m with
  | 1 => 0
  | 2 => 31
  | 3 => 59
  | 4 => 90
  | 5 => 120
  | 6 => 151
  | 7 => 181
  | 8 => 212
  | 9 => 243
  | 10 => 273
  | 11 => 304
  | 12 => 334
  | _ => 365

/-- Rata-die day number of a date: the standard proleptic Gregorian day
count underlying `chrono`'s date subtraction. -/
def Date.toRd (d : Date) : Int :=
  365 * (d.year - 1) + (d.year - 1) / 4 - (d.year - 1) / 100 + (d.year - 1) / 400
    + (daysBeforeMonth d.month : Int)
    + (if 2 < d.month ∧ isLeap d.year then 1 else 0)
    + (d.day : Int)

/-- Rust `days_in_month` from `src/app.rs`: the first day of the next month
minus the first day of the given month, in days. -/
def daysInMonth (year : Int) (month : Nat) : Nat :=
  ((if month = 12 then
      Date.toRd ⟨year + 1, 1, 1⟩
    else
      Date.toRd ⟨year, month + 1, 1⟩)
   - Date.toRd ⟨year, month, 1⟩).toNat

/-- The known Gregorian month lengths, written from the spec's words
("Feb 2024 = 29, Feb 2023 = 28, Apr = 30") as the reference to compare
`daysInMonth` against. -/
def gregorianDaysInMonth (y : Int) (m : Nat) : Nat :=
  match m with
  | 1 => 31
  | 2 => if isLeap y then 29 else 28
  | 3 => 31
  | 4 => 30
  | 5 => 31
  | 6 => 30
  | 7 => 31
  | 8 => 31
  | 9 => 30
  | 10 => 31
  | 11 => 30
  | 12 => 31
  | _ => 0

/-- A structurally valid date (what `NaiveDate::from_ymd_opt` accepts,
up to chrono's representable year range). -/
def Date.ValidYmd (d : Date) : Prop :=
  1 ≤ d.month ∧ d.month ≤ 12 ∧ 1 ≤ d.day ∧ d.day ≤ daysInMonth d.year d.month

instance (d : Date) : Decidable d.ValidYmd := by
  unfold Date.ValidYmd; infer_instance

/-- Rust `chrono::NaiveDate::MAX` (December 31, 262143 CE). -/
def Date.maxDate : Date := ⟨262143, 12, 31⟩

/-- Rust `chrono::NaiveDate::MIN` (January 1 of year −262144). -/
def Date.minDate : Date := ⟨-262144, 1, 1⟩

/-- Rust `chrono::NaiveDate::succ_opt`: the calendar successor, or `none` past
the maximum representable date. -/
def succOpt (d : Date) : Option Date :=
  if d = Date.maxDate then none
  else if d.day < daysInMonth d.year d.month then some ⟨d.year, d.month, d.day + 1⟩
  else if d.month < 12 then some ⟨d.year, d.month + 1, 1⟩
  else some ⟨d.year + 1, 1, 1⟩

/-- Rust `chrono::NaiveDate::pred_opt`: the calendar predecessor, or `none`
past the minimum representable date. -/
def predOpt (d : Date) : Option Date :=
  if d = Date.minDate then none
  else if 1 < d.day then some ⟨d.year, d.month, d.day - 1⟩
  else if 1 < d.month then some ⟨d.year, d.month - 1, daysInMonth d.year (d.month - 1)⟩
  else some ⟨d.year - 1, 12, 31⟩

/-- The `selected_date` update of `App::next_month` (`src/app.rs` 166–173):
advance the month, wrapping the year at December, and clamp the day via
`day().min(days_in_month(..))`. -/
def nextMonthDate (d : Date) : Date :=
  let p := if d.month = 12 then (d.year + 1, 1) else (d.year, d.month + 1)
  ⟨p.1, p.2, min d.day (daysInMonth p.1 p.2)⟩

/-- The `selected_date` update of `App::prev_month` (`src/app.rs` 175–182). -/
def prevMonthDate (d : Date) : Date :=
  let p := if d.month = 1 then (d.year - 1, 12) else (d.year, d.month - 1)
  ⟨p.1, p.2, min d.day (daysInMonth p.1 p.2)⟩

/-! ### Month-length facts -/

theorem daysInMonth_eq_gregorian (y : Int) (m : Nat) (h1 : 1 ≤ m) (h2 : m ≤ 12) :
    daysInMonth y m = gregorianDaysInMonth y m := by
  interval_cases m <;>
    · simp only [daysInMonth, gregorianDaysInMonth, Date.toRd, daysBeforeMonth, isLeap]
      split_ifs <;> simp_all <;> omega

theorem daysInMonth_pos (y : Int) (m : Nat) (h1 : 1 ≤ m) (h2 : m ≤ 12) :
    1 ≤ daysInMonth y m := by
  rw [daysInMonth_eq_gregorian y m h1 h2]
  interval_cases m <;> simp [gregorianDaysInMonth] <;> split <;> omega

/-! ## The day-list compositor and the scroll/action cursor

`App::day_list_len`, `App::day_action_at` (`src/app.rs` 254–350) and the
row sequence built by `DayView::render` (`src/components/day_view.rs`
67–103).
-/

/-- Indices of the all-day events within `day_events`
(`day_action_at`'s `all_day_indices`). -/
def allDayIndices (evs : List CalendarEvent) : List Nat :=
  (evs.enum.filter (fun p => p.2.isAllDay)).map (fun p => p.1)

/-- Indices of the timed events within `day_events`
(`day_action_at`'s `timed_indices`). -/
def timedIndices (evs : List CalendarEvent) : List Nat :=
  (evs.enum.filter (fun p => !p.2.isAllDay)).map (fun p => p.1)

/-- Rust `App::day_list_len` (`src/app.rs` 254–274): total number of visual
rows in the day list (headers + items + spacers), by arithmetic on
section presence. -/
def dayListLen (evs : List CalendarEvent) (rems : Nat) : Nat :=
  let allDay := (evs.filter (fun e => e.isAllDay)).length
  let timed := (evs.filter (fun e => !e.isAllDay)).length
  let len0 := 0
  let len1 :=
    if allDay > 0 then
      len0 + 1 + allDay + (if rems > 0 ∨ timed > 0 then 1 else 0)
    else len0
  let len2 :=
    if rems > 0 then
      len1 + 1 + rems + (if timed > 0 then 1 else 0)
    else len1
  len2 + timed

/-- One loop of `day_action_at`: `for &idx in list { if scroll == pos
{ return .. idx } pos += 1 }` — the matched element, if `scroll` falls
on this run of item rows. -/
def scanIdx : List Nat → Nat → Nat → Option Nat
  | [], _, _ => none
  | i :: rest, pos, scroll =>
      if scroll = pos then some i else scanIdx rest (pos + 1) scroll

/-- The timed-events tail of `day_action_at` (`src/app.rs` 342–349). -/
def timedPart (tIdx : List Nat) (pos scroll : Nat) : DayAction :=
  match scanIdx tIdx pos scroll with
  | some idx => .event idx
  | none => .none

/-- The reminders section of `day_action_at` followed by the timed tail
(`src/app.rs` 322–349). -/
def remsTimedPart (tIdx : List Nat) (rems pos scroll : Nat) : DayAction :=
  if rems > 0 then
    if scroll = pos then .none  -- section header
    else
      match scanIdx (List.range rems) (pos + 1) scroll with
      | some i => .reminder i
      | none =>
        let pos2 := pos + 1 + rems
        if ¬ tIdx.isEmpty then
          if scroll = pos2 then .none  -- spacer
          else timedPart tIdx (pos2 + 1) scroll
        else timedPart tIdx pos2 scroll
  else timedPart tIdx pos scroll

/-- Rust `App::day_action_at` (`src/app.rs` 282–350): what kind of item is at
scroll position `scroll`, given the day's events and the number of day
reminders (the source touches `day_reminders` only through `len()`). -/
def dayActionAt (evs : List CalendarEvent) (rems : Nat) (scroll : Nat) : DayAction :=
  let aIdx := allDayIndices evs
  let tIdx := timedIndices evs
  if ¬ aIdx.isEmpty then
    if scroll = 0 then .none  -- section header
    else
      match scanIdx aIdx 1 scroll with
      | some idx => .event idx
      | none =>
        let pos := 1 + aIdx.length
        if rems > 0 ∨ ¬ tIdx.isEmpty then
          if scroll = pos then .none  -- spacer
          else remsTimedPart tIdx rems (pos + 1) scroll
        else remsTimedPart tIdx rems pos scroll
  else remsTimedPart tIdx rems 0 scroll

/-- One visual row of the day list, as materialized by
`DayView::render` (`src/components/day_view.rs` 70–103): a section
header, a blank separator line, or an item row showing one event or
reminder. -/
inductive DayRow where
  | header
  | spacer
  | eventRow (i : Nat)
  | reminderRow (i : Nat)
deriving DecidableEq, Repr

/-- The all-day section of the rendered day list
(`src/components/day_view.rs` 73–84): header, one row per all-day event,
and a blank spacer when reminders or timed events follow. -/
def allDaySectionRows (aIdx tIdx : List Nat) (rems : Nat) : List DayRow :=
  if ¬ aIdx.isEmpty then
    [DayRow.header] ++ aIdx.map DayRow.eventRow
      ++ (if rems > 0 ∨ ¬ tIdx.isEmpty then [DayRow.spacer] else [])
  else []

/-- The reminders section of the rendered day list
(`src/components/day_view.rs` 87–98): header, one row per reminder, and
a blank spacer when timed events follow. -/
def remsSectionRows (tIdx : List Nat) (rems : Nat) : List DayRow :=
  if rems > 0 then
    [DayRow.header] ++ (List.range rems).map DayRow.reminderRow
      ++ (if ¬ tIdx.isEmpty then [DayRow.spacer] else [])
  else []

/-- The flattened row sequence built by `DayView::render`
(`src/components/day_view.rs` 70–103): all-day section, reminders
section, then one row per timed event with no trailing header/spacer. -/
def dayRows (evs : List CalendarEvent) (rems : Nat) : List DayRow :=
  let aIdx := allDayIndices evs
  let tIdx := timedIndices evs
  allDaySectionRows aIdx tIdx rems ++ remsSectionRows tIdx rems
    ++ tIdx.map DayRow.eventRow

/-- The semantic action a row represents: item rows are actionable,
headers and spacers are not. -/
def rowToAction : DayRow → DayAction
  | .header => .none
  | .spacer => .none
  | .eventRow i => .event i
  | .reminderRow i => .reminder i

/-- Looking an action up in a row list, with the list starting at
absolute position `pos`: positions before `pos` or past the end give
`.none`. -/
def lookupRows (rows : List DayRow) (pos scroll : Nat) : DayAction :=
  if pos ≤ scroll then
    match rows.get? (scroll - pos) with
    | some r => rowToAction r
    | none => .none
  else .none

/-! ### The cursor function agrees with the rendered rows -/

theorem scanIdx_eq (l : List Nat) (pos scroll : Nat) :
    scanIdx l pos scroll =
      if pos ≤ scroll then l.get? (scroll - pos) else none := by
  induction l generalizing pos with
  | nil => simp [scanIdx]
  | cons i rest ih =>
    simp only [scanIdx]
    by_cases h : scroll = pos
    · subst h; simp
    · rw [ih]
      by_cases h2 : pos ≤ scroll
      · have h3 : pos + 1 ≤ scroll := by omega
        have h4 : scroll - pos = (scroll - (pos + 1)) + 1 := by omega
        simp [h, h2, h3, h4]
      · have h3 : ¬ pos + 1 ≤ scroll := by omega
        simp [h, h2, h3]

theorem lookupRows_nil (pos scroll : Nat) : lookupRows [] pos scroll = .none := by
  simp [lookupRows]

theorem lookupRows_cons (r : DayRow) (rest : List DayRow) (pos scroll : Nat) :
    lookupRows (r :: rest) pos scroll =
      if scroll = pos then rowToAction r else lookupRows rest (pos + 1) scroll := by
  unfold lookupRows
  by_cases h : scroll = pos
  · subst h; simp
  · by_cases h2 : pos ≤ scroll
    · have h3 : pos + 1 ≤ scroll := by omega
      have h4 : scroll - pos = (scroll - (pos + 1)) + 1 := by omega
      simp [h, h2, h3, h4]
    · have h3 : ¬ pos + 1 ≤ scroll := by omega
      simp [h, h2, h3]

theorem lookupRows_append (x y : List DayRow) (pos scroll : Nat) :
    lookupRows (x ++ y) pos scroll =
      if scroll < pos + x.length then lookupRows x pos scroll
      else lookupRows y (pos + x.length) scroll := by
  unfold lookupRows
  by_cases h1 : pos ≤ scroll
  · by_cases h2 : scroll < pos + x.length
    · have hlt : scroll - pos < x.length := by omega
      simp only [h1, h2, if_pos, List.getElem?_append_left hlt, List.get?_eq_getElem?]
    · have hge : x.length ≤ scroll - pos := by omega
      have h3 : pos + x.length ≤ scroll := by omega
      have h4 : scroll - pos - x.length = scroll - (pos + x.length) := by omega
      simp only [h1, h2, if_pos, List.get?_eq_getElem?,
        List.getElem?_append_right hge, h4]
      simp [h3]
  · have h2 : ¬ pos + x.length ≤ scroll := by omega
    have h3 : ¬ scroll < pos + x.length → ¬ pos + x.length ≤ scroll := fun _ => h2
    simp [h1, h2]

theorem timedPart_eq (tIdx : List Nat) (pos scroll : Nat) :
    timedPart tIdx pos scroll = lookupRows (tIdx.map DayRow.eventRow) pos scroll := by
  unfold timedPart lookupRows
  rw [scanIdx_eq]
  by_cases h : pos ≤ scroll
  · simp only [h, if_pos, List.get?_eq_getElem?, List.getElem?_map]
    cases tIdx[scroll - pos]? <;> simp [rowToAction]
  · simp [h]

theorem lookupRows_lt (rows : List DayRow) (pos scroll : Nat) (h : scroll < pos) :
    lookupRows rows pos scroll = .none := by
  unfold lookupRows
  rw [if_neg (by omega)]

theorem lookupRows_reminderRows (n pos scroll : Nat) (h1 : pos ≤ scroll)
    (h2 : scroll - pos < n) :
    lookupRows ((List.range n).map DayRow.reminderRow) pos scroll
      = .reminder (scroll - pos) := by
  unfold lookupRows
  rw [if_pos h1, List.get?_eq_getElem?, List.getElem?_map, List.getElem?_range h2]
  rfl

theorem remsTimedPart_eq (tIdx : List Nat) (rems pos scroll : Nat) :
    remsTimedPart tIdx rems pos scroll =
      lookupRows (remsSectionRows tIdx rems ++ tIdx.map DayRow.eventRow) pos scroll := by
  by_cases hr : rems > 0
  · have hrows : remsSectionRows tIdx rems ++ tIdx.map DayRow.eventRow
        = DayRow.header :: ((List.range rems).map DayRow.reminderRow
            ++ ((if ¬ tIdx.isEmpty then [DayRow.spacer] else [])
                ++ tIdx.map DayRow.eventRow)) := by
      simp [remsSectionRows, hr]
    rw [hrows, lookupRows_cons]
    unfold remsTimedPart
    rw [if_pos hr]
    by_cases h0 : scroll = pos
    · rw [if_pos h0, if_pos h0]
      rfl
    · rw [if_neg h0, if_neg h0]
      rw [lookupRows_append, scanIdx_eq, List.length_map, List.length_range]
      by_cases h1 : pos + 1 ≤ scroll
      · rw [if_pos h1]
        by_cases h2 : scroll - (pos + 1) < rems
        · have hc : scroll < pos + 1 + rems := by omega
          rw [List.get?_eq_getElem?, List.getElem?_range h2, if_pos hc,
            lookupRows_reminderRows rems (pos + 1) scroll h1 h2]
        · have hc : ¬ scroll < pos + 1 + rems := by omega
          rw [List.get?_eq_getElem?,
            List.getElem?_eq_none (by rw [List.length_range]; omega), if_neg hc]
          by_cases ht : tIdx.isEmpty
          · rw [if_neg (show ¬ ¬ (tIdx.isEmpty = true) by simp [ht]), timedPart_eq]
            rw [show (if ¬ tIdx.isEmpty = true then [DayRow.spacer] else [])
                = ([] : List DayRow) by simp [ht]]
            rw [List.nil_append]
          · rw [if_pos (show ¬ (tIdx.isEmpty = true) by simp [ht])]
            rw [show (if ¬ tIdx.isEmpty = true then [DayRow.spacer] else [])
                = [DayRow.spacer] by simp [ht]]
            rw [show ([DayRow.spacer] ++ tIdx.map DayRow.eventRow : List DayRow)
                = DayRow.spacer :: tIdx.map DayRow.eventRow from rfl]
            rw [lookupRows_cons]
            by_cases h3 : scroll = pos + 1 + rems
            · rw [if_pos h3, if_pos h3]
              rfl
            · rw [if_neg h3, if_neg h3, timedPart_eq]
      · -- scroll < pos + 1 and scroll ≠ pos, so scroll < pos: all rows are past it
        have hlt : scroll < pos := by omega
        rw [if_neg h1,
          if_pos (show scroll < pos + 1 + rems by omega),
          lookupRows_lt ((List.range rems).map DayRow.reminderRow) (pos + 1) scroll
            (by omega)]
        by_cases ht : tIdx.isEmpty
        · rw [if_neg (show ¬ ¬ (tIdx.isEmpty = true) by simp [ht]), timedPart_eq,
            lookupRows_lt (tIdx.map DayRow.eventRow) (pos + 1 + rems) scroll (by omega)]
        · rw [if_pos (show ¬ (tIdx.isEmpty = true) by simp [ht]),
            if_neg (show ¬ (scroll = pos + 1 + rems) by omega), timedPart_eq,
            lookupRows_lt (tIdx.map DayRow.eventRow) (pos + 1 + rems + 1) scroll
              (by omega)]
  · have h0 : rems = 0 := by omega
    subst h0
    unfold remsTimedPart
    simp only [gt_iff_lt, lt_irrefl, if_false]
    rw [timedPart_eq]
    simp [remsSectionRows]

/-- Correspondence: `day_action_at` computes exactly the action of the row that
`DayView::render` places at the same position (`.none` past the end). -/
theorem dayActionAt_eq (evs : List CalendarEvent) (rems scroll : Nat) :
    dayActionAt evs rems scroll = lookupRows (dayRows evs rems) 0 scroll := by
  unfold dayActionAt dayRows
  dsimp only
  rw [List.append_assoc]
  by_cases ha : (allDayIndices evs).isEmpty
  · rw [if_neg (show ¬ ¬ ((allDayIndices evs).isEmpty = true) by simp [ha])]
    rw [show allDaySectionRows (allDayIndices evs) (timedIndices evs) rems = []
      by simp [allDaySectionRows, ha]]
    rw [List.nil_append, remsTimedPart_eq]
  · rw [if_pos (show ¬ ((allDayIndices evs).isEmpty = true) by simp [ha])]
    rw [show allDaySectionRows (allDayIndices evs) (timedIndices evs) rems
        = DayRow.header :: ((allDayIndices evs).map DayRow.eventRow
            ++ (if rems > 0 ∨ ¬ (timedIndices evs).isEmpty then [DayRow.spacer] else []))
      by simp [allDaySectionRows, ha]]
    rw [show (DayRow.header :: ((allDayIndices evs).map DayRow.eventRow
            ++ (if rems > 0 ∨ ¬ (timedIndices evs).isEmpty then [DayRow.spacer] else [])))
          ++ (remsSectionRows (timedIndices evs) rems
              ++ (timedIndices evs).map DayRow.eventRow)
        = DayRow.header :: ((allDayIndices evs).map DayRow.eventRow
            ++ ((if rems > 0 ∨ ¬ (timedIndices evs).isEmpty then [DayRow.spacer] else [])
                ++ (remsSectionRows (timedIndices evs) rems
                    ++ (timedIndices evs).map DayRow.eventRow)))
      by simp]
    rw [lookupRows_cons]
    by_cases h0 : scroll = 0
    · rw [if_pos h0, if_pos h0]
      rfl
    · rw [if_neg h0, if_neg h0, lookupRows_append, List.length_map, scanIdx_eq]
      have h1 : 1 ≤ scroll := by omega
      rw [if_pos h1]
      by_cases h2 : scroll - 1 < (allDayIndices evs).length
      · have hget : ∃ idx, (allDayIndices evs)[scroll - 1]? = some idx := by
          exact ⟨(allDayIndices evs).get ⟨scroll - 1, h2⟩, List.getElem?_eq_getElem h2⟩
        obtain ⟨idx, hget⟩ := hget
        rw [List.get?_eq_getElem?, hget,
          if_pos (show scroll < 1 + (allDayIndices evs).length by omega)]
        unfold lookupRows
        rw [if_pos h1, List.get?_eq_getElem?, List.getElem?_map, hget]
        rfl
      · rw [List.get?_eq_getElem?, List.getElem?_eq_none (by omega),
          if_neg (show ¬ scroll < 1 + (allDayIndices evs).length by omega)]
        by_cases hcond : rems > 0 ∨ ¬ ((timedIndices evs).isEmpty = true)
        · rw [if_pos hcond]
          rw [show (if rems > 0 ∨ ¬ (timedIndices evs).isEmpty then [DayRow.spacer]
              else []) = [DayRow.spacer] from if_pos hcond]
          rw [show ([DayRow.spacer] ++ (remsSectionRows (timedIndices evs) rems
                ++ (timedIndices evs).map DayRow.eventRow) : List DayRow)
              = DayRow.spacer :: (remsSectionRows (timedIndices evs) rems
                ++ (timedIndices evs).map DayRow.eventRow) from rfl]
          rw [lookupRows_cons]
          by_cases h3 : scroll = 1 + (allDayIndices evs).length
          · rw [if_pos h3, if_pos h3]
            rfl
          · rw [if_neg h3, if_neg h3, remsTimedPart_eq]
        · rw [if_neg hcond]
          rw [show (if rems > 0 ∨ ¬ (timedIndices evs).isEmpty then [DayRow.spacer]
              else []) = ([] : List DayRow) from if_neg hcond]
          rw [List.nil_append, remsTimedPart_eq]

/-! ### Length, contents and bounds of the day list -/

theorem length_filter_enumFrom {α : Type} (p : α → Bool) (l : List α) (n : Nat) :
    ((List.enumFrom n l).filter (fun q => p q.2)).length = (l.filter p).length := by
  induction l generalizing n with
  | nil => rfl
  | cons a rest ih =>
    simp only [List.enumFrom, List.filter]
    cases p a <;> simp [ih]

theorem allDayIndices_length (evs : List CalendarEvent) :
    (allDayIndices evs).length = (evs.filter (fun e => e.isAllDay)).length := by
  unfold allDayIndices
  rw [List.length_map, List.enum]
  exact length_filter_enumFrom _ evs 0

theorem timedIndices_length (evs : List CalendarEvent) :
    (timedIndices evs).length = (evs.filter (fun e => !e.isAllDay)).length := by
  unfold timedIndices
  rw [List.length_map, List.enum]
  exact length_filter_enumFrom (fun e => !e.isAllDay) evs 0

/-- Rust `day_list_len` equals the number of rows the compositor produces. -/
theorem dayListLen_eq (evs : List CalendarEvent) (rems : Nat) :
    dayListLen evs rems = (dayRows evs rems).length := by
  unfold dayListLen dayRows allDaySectionRows remsSectionRows
  dsimp only
  simp only [List.isEmpty_iff_length_eq_zero, allDayIndices_length, timedIndices_length,
    List.length_append, List.length_map, List.length_range, List.length_cons,
    List.length_nil, List.length_singleton]
  split_ifs <;>
    first
      | omega
      | (simp only [List.length_append, List.length_map, List.length_range,
          List.length_cons, List.length_nil, List.length_singleton,
          allDayIndices_length, timedIndices_length]
         try omega)

/-- The payload of an item row; `none` for headers and spacers. -/
def itemAction : DayRow → Option DayAction
  | .header => none
  | .spacer => none
  | .eventRow i => some (.event i)
  | .reminderRow i => some (.reminder i)

theorem dayRows_filterMap (evs : List CalendarEvent) (rems : Nat) :
    (dayRows evs rems).filterMap itemAction
      = (allDayIndices evs).map DayAction.event
        ++ (List.range rems).map DayAction.reminder
        ++ (timedIndices evs).map DayAction.event := by
  have hev : ∀ l : List Nat,
      List.filterMap itemAction (l.map DayRow.eventRow) = l.map DayAction.event := by
    intro l
    rw [List.filterMap_map]
    exact congrFun (List.filterMap_eq_map DayAction.event) l
  have hrem : ∀ l : List Nat,
      List.filterMap itemAction (l.map DayRow.reminderRow) = l.map DayAction.reminder := by
    intro l
    rw [List.filterMap_map]
    exact congrFun (List.filterMap_eq_map DayAction.reminder) l
  have hh : itemAction DayRow.header = none := rfl
  have hs : itemAction DayRow.spacer = none := rfl
  unfold dayRows allDaySectionRows remsSectionRows
  dsimp only
  split_ifs <;>
    simp_all [List.filterMap_append, List.filterMap_cons, List.isEmpty_iff,
      Nat.not_lt, Nat.le_zero]

theorem range_filterMap_lookup {α β : Type} (l : List α) (f : α → Option β) :
    (List.range l.length).filterMap (fun i => (l.get? i).bind f) = l.filterMap f := by
  induction l with
  | nil => rfl
  | cons a rest ih =>
    rw [List.length_cons, List.range_succ_eq_map]
    rw [List.filterMap_cons, List.filterMap_map]
    have hzero : ((a :: rest).get? 0).bind f = f a := rfl
    have hcomp : ((fun i => ((a :: rest).get? i).bind f) ∘ Nat.succ)
        = fun i => (rest.get? i).bind f := by
      funext i
      simp [List.get?_eq_getElem?, List.getElem?_cons_succ, Function.comp]
    rw [hcomp, ih, hzero]
    cases hfa : f a <;> simp [List.filterMap_cons, hfa]

/-- The actions the cursor recovers while iterating positions
`0..day_list_len()`, in order. -/
def recoveredActions (evs : List CalendarEvent) (rems : Nat) : List DayAction :=
  (List.range (dayListLen evs rems)).filterMap (fun i =>
    match dayActionAt evs rems i with
    | .none => none
    | a => some a)

theorem recoveredActions_eq (evs : List CalendarEvent) (rems : Nat) :
    recoveredActions evs rems
      = (allDayIndices evs).map DayAction.event
        ++ (List.range rems).map DayAction.reminder
        ++ (timedIndices evs).map DayAction.event := by
  unfold recoveredActions
  rw [dayListLen_eq]
  have hpt : (fun i => match dayActionAt evs rems i with
      | .none => none
      | a => some a)
      = fun i => ((dayRows evs rems).get? i).bind itemAction := by
    funext i
    rw [dayActionAt_eq]
    unfold lookupRows
    rw [if_pos (Nat.zero_le i), Nat.sub_zero]
    cases (dayRows evs rems).get? i with
    | none => rfl
    | some r => cases r <;> rfl
  rw [hpt, range_filterMap_lookup, dayRows_filterMap]

/-- The all-day and timed index lists partition the day-event indices. -/
theorem allDay_timed_perm (evs : List CalendarEvent) :
    (allDayIndices evs ++ timedIndices evs).Perm (List.range evs.length) := by
  unfold allDayIndices timedIndices
  rw [← List.map_append]
  have hperm := List.filter_append_perm (fun q : Nat × CalendarEvent => q.2.isAllDay) evs.enum
  have := hperm.map Prod.fst
  rw [List.enum_map_fst] at this
  exact this

theorem mem_enumFrom_fst_lt {α : Type} (l : List α) (n : Nat) (q : Nat × α)
    (h : q ∈ List.enumFrom n l) : q.1 < n + l.length := by
  induction l generalizing n with
  | nil => simp [List.enumFrom] at h
  | cons a rest ih =>
    simp only [List.enumFrom, List.mem_cons] at h
    rcases h with h | h
    · subst h
      simp
    · have := ih (n + 1) h
      simp only [List.length_cons]
      omega

theorem mem_allDayIndices_lt (evs : List CalendarEvent) (i : Nat)
    (h : i ∈ allDayIndices evs) : i < evs.length := by
  unfold allDayIndices at h
  simp only [List.mem_map, List.mem_filter] at h
  obtain ⟨q, ⟨hq, _⟩, rfl⟩ := h
  have := mem_enumFrom_fst_lt evs 0 q (by rw [List.enum] at hq; exact hq)
  omega

theorem mem_timedIndices_lt (evs : List CalendarEvent) (i : Nat)
    (h : i ∈ timedIndices evs) : i < evs.length := by
  unfold timedIndices at h
  simp only [List.mem_map, List.mem_filter] at h
  obtain ⟨q, ⟨hq, _⟩, rfl⟩ := h
  have := mem_enumFrom_fst_lt evs 0 q (by rw [List.enum] at hq; exact hq)
  omega

/-! ## Cursor movement

`App::scroll_day_down`, `App::scroll_day_up`, `App::first_actionable_scroll`
(`src/app.rs` 190–236).
-/

/-- The skip loop of `scroll_day_down` (`src/app.rs` 197–202):
`while next < len { if !matches!(action_at(next), None) { break } next += 1 }`. -/
def skipForward (evs : List CalendarEvent) (rems len next : Nat) : Nat :=
  if next < len then
    if dayActionAt evs rems next = DayAction.none then
      skipForward evs rems len (next + 1)
    else next
  else next
termination_by len - next

/-- Rust `App::scroll_day_down` (`src/app.rs` 190–206), as the new value of
`day_scroll`. -/
def scrollDayDown (evs : List CalendarEvent) (rems scroll : Nat) : Nat :=
  let len := dayListLen evs rems
  if len = 0 then scroll
  else
    let next := skipForward evs rems len (scroll + 1)
    if next < len then next else scroll

/-- The skip loop of `scroll_day_up` (`src/app.rs` 214–223): walk down
from `prev`, returning the first actionable position, or `none` if the
walk hits 0 without finding one. -/
def skipBackward (evs : List CalendarEvent) (rems prev : Nat) : Option Nat :=
  if dayActionAt evs rems prev = DayAction.none then
    if prev = 0 then none
    else skipBackward evs rems (prev - 1)
  else some prev
termination_by prev

/-- Rust `App::scroll_day_up` (`src/app.rs` 208–225), as the new value of
`day_scroll`. -/
def scrollDayUp (evs : List CalendarEvent) (rems scroll : Nat) : Nat :=
  if scroll = 0 then scroll
  else
    match skipBackward evs rems (scroll - 1) with
    | some prev => prev
    | none => scroll

/-- The scan loop of `first_actionable_scroll` (`src/app.rs` 228–236). -/
def firstActionableFrom (evs : List CalendarEvent) (rems len i : Nat) : Nat :=
  if i < len then
    if dayActionAt evs rems i = DayAction.none then
      firstActionableFrom evs rems len (i + 1)
    else i
  else 0
termination_by len - i

/-- Rust `App::first_actionable_scroll` (`src/app.rs` 228–236): the first
actionable position in the day list, or 0 if none exists. -/
def firstActionableScroll (evs : List CalendarEvent) (rems : Nat) : Nat :=
  firstActionableFrom evs rems (dayListLen evs rems) 0

theorem skipForward_le (evs : List CalendarEvent) (rems len next : Nat) :
    next ≤ skipForward evs rems len next := by
  induction next using skipForward.induct evs rems len with
  | case1 x hx hp ih =>
    unfold skipForward
    rw [if_pos hx, if_pos hp]
    omega
  | case2 x hx hp =>
    unfold skipForward
    rw [if_pos hx, if_neg hp]
  | case3 x hx =>
    unfold skipForward
    rw [if_neg hx]

theorem skipForward_actionable (evs : List CalendarEvent) (rems len next : Nat)
    (h : skipForward evs rems len next < len) :
    ¬ dayActionAt evs rems (skipForward evs rems len next) = DayAction.none := by
  induction next using skipForward.induct evs rems len with
  | case1 x hx hp ih =>
    unfold skipForward at h ⊢
    rw [if_pos hx, if_pos hp] at h ⊢
    exact ih h
  | case2 x hx hp =>
    unfold skipForward at h ⊢
    rw [if_pos hx, if_neg hp] at h ⊢
    exact hp
  | case3 x hx =>
    unfold skipForward at h
    rw [if_neg hx] at h
    exact absurd h hx

theorem skipForward_all_none (evs : List CalendarEvent) (rems len next : Nat)
    (h : ∀ j, next ≤ j → j < len → dayActionAt evs rems j = DayAction.none) :
    len ≤ skipForward evs rems len next := by
  induction next using skipForward.induct evs rems len with
  | case1 x hx hp ih =>
    unfold skipForward
    rw [if_pos hx, if_pos hp]
    exact ih (fun j h1 h2 => h j (by omega) h2)
  | case2 x hx hp =>
    exact absurd (h x (le_refl x) hx) hp
  | case3 x hx =>
    unfold skipForward
    rw [if_neg hx]
    omega

theorem skipBackward_some (evs : List CalendarEvent) (rems prev r : Nat)
    (h : skipBackward evs rems prev = some r) :
    r ≤ prev ∧ ¬ dayActionAt evs rems r = DayAction.none := by
  induction prev using skipBackward.induct evs rems with
  | case1 hp =>
    unfold skipBackward at h
    rw [if_pos hp, if_pos rfl] at h
    cases h
  | case2 x hp hx ih =>
    unfold skipBackward at h
    rw [if_pos hp, if_neg hx] at h
    have := ih h
    exact ⟨by omega, this.2⟩
  | case3 x hp =>
    unfold skipBackward at h
    rw [if_neg hp] at h
    cases h
    exact ⟨le_refl _, hp⟩

theorem skipBackward_none_of (evs : List CalendarEvent) (rems prev : Nat)
    (h : ∀ j, j ≤ prev → dayActionAt evs rems j = DayAction.none) :
    skipBackward evs rems prev = none := by
  induction prev using skipBackward.induct evs rems with
  | case1 hp =>
    unfold skipBackward
    rw [if_pos hp, if_pos rfl]
  | case2 x hp hx ih =>
    unfold skipBackward
    rw [if_pos hp, if_neg hx]
    exact ih (fun j hj => h j (by omega))
  | case3 x hp =>
    exact absurd (h x (le_refl x)) hp

theorem firstActionableFrom_spec (evs : List CalendarEvent) (rems len i : Nat)
    (h : ∃ j, i ≤ j ∧ j < len ∧ ¬ dayActionAt evs rems j = DayAction.none) :
    firstActionableFrom evs rems len i < len ∧
      ¬ dayActionAt evs rems (firstActionableFrom evs rems len i) = DayAction.none := by
  induction i using firstActionableFrom.induct evs rems len with
  | case1 x hx hp ih =>
    unfold firstActionableFrom
    rw [if_pos hx, if_pos hp]
    apply ih
    obtain ⟨j, h1, h2, h3⟩ := h
    refine ⟨j, ?_, h2, h3⟩
    rcases Nat.eq_or_lt_of_le h1 with rfl | hlt
    · exact absurd hp h3
    · omega
  | case2 x hx hp =>
    unfold firstActionableFrom
    rw [if_pos hx, if_neg hp]
    exact ⟨hx, hp⟩
  | case3 x hx =>
    obtain ⟨j, h1, h2, _⟩ := h
    omega

/-! ## The reminder sort order

`App::refresh_reminders` (`src/app.rs` 129–137) sorts with
`a.calendar_name.cmp(&b.calendar_name).then(a.due_date.cmp(&b.due_date))`.
Rust's `Ord` on `String` is lexicographic byte order, which coincides with
Lean's `compare` on `String` (UTF-8 byte order equals code-point order);
`Ord` on `Option` puts `None` before `Some`; `Ord` on `DateTime<Local>`
is chronological order, i.e. lexicographic on (date, seconds-of-day) for
a fixed local offset.
-/

/-- Lexicographic comparison of dates (chronological order of
`chrono::NaiveDate`). -/
def dateCmp : Date → Date → Ordering :=
  compareLex (compareOn (fun d : Date => d.year))
    (compareLex (compareOn (fun d : Date => d.month))
      (compareOn (fun d : Date => d.day)))

instance : Ord Date := ⟨dateCmp⟩

instance : Batteries.TransCmp dateCmp := by
  unfold dateCmp
  infer_instance

instance : Batteries.TransOrd Date :=
  inferInstanceAs (Batteries.TransCmp dateCmp)

/-- Chronological comparison of local datetimes (`Ord` on
`chrono::DateTime<Local>`). -/
def dtCmp : DateTimeL → DateTimeL → Ordering :=
  compareLex (compareOn (fun t : DateTimeL => t.date))
    (compareOn (fun t : DateTimeL => t.secs))

instance : Ord DateTimeL := ⟨dtCmp⟩

instance : Batteries.TransCmp dtCmp := by
  unfold dtCmp
  infer_instance

instance : Batteries.TransOrd DateTimeL :=
  inferInstanceAs (Batteries.TransCmp dtCmp)

/-- Rust's `Ord` on `Option`: `None` sorts before `Some`. -/
def optCmp {α : Type} (cmp : α → α → Ordering) : Option α → Option α → Ordering
  | none, none => .eq
  | none, some _ => .lt
  | some _, none => .gt
  | some a, some b => cmp a b

instance {α : Type} (cmp : α → α → Ordering) [Batteries.OrientedCmp cmp] :
    Batteries.OrientedCmp (optCmp cmp) where
  symm a b := by
    cases a <;> cases b <;> simp [optCmp, Ordering.swap]
    exact Batteries.OrientedCmp.symm _ _

instance {α : Type} (cmp : α → α → Ordering) [Batteries.TransCmp cmp] :
    Batteries.TransCmp (optCmp cmp) where
  le_trans {a b c} h1 h2 := by
    cases a <;> cases b <;> cases c <;> simp [optCmp] at h1 h2 ⊢
    exact Batteries.TransCmp.le_trans h1 h2

/-- The comparator of `App::refresh_reminders` (`src/app.rs` 132–136):
calendar name first, then due date (with `None` due dates first, per
Rust's `Option` ordering). -/
def reminderCmp (a b : Reminder) : Ordering :=
  (compare a.calendarName b.calendarName).then (optCmp dtCmp a.dueDate b.dueDate)

instance : Batteries.TransCmp reminderCmp := by
  have h : reminderCmp
      = compareLex (compareOn (fun r : Reminder => r.calendarName))
          (Ordering.byKey (fun r : Reminder => r.dueDate) (optCmp dtCmp)) := by
    funext a b
    rfl
  rw [h]
  infer_instance

/-- The boolean "not greater" relation the stable sort establishes. -/
def reminderLe (a b : Reminder) : Bool :=
  decide (reminderCmp a b ≠ Ordering.gt)

/-- Rust `Vec::sort_by` with `reminderCmp`: a stable sort, modelled by
`List.mergeSort` (also stable), which produces the same list. -/
def sortReminders (l : List Reminder) : List Reminder :=
  l.mergeSort reminderLe

theorem sortReminders_perm (l : List Reminder) : (sortReminders l).Perm l :=
  List.mergeSort_perm l reminderLe

theorem sortReminders_sorted (l : List Reminder) :
    (sortReminders l).Pairwise (fun a b => reminderLe a b = true) := by
  apply List.sorted_mergeSort
  · intro a b c h1 h2
    simp only [reminderLe, decide_eq_true_eq] at h1 h2 ⊢
    exact Batteries.TransCmp.le_trans h1 h2
  · intro a b
    simp only [reminderLe, Bool.or_eq_true, decide_eq_true_eq]
    rcases h : reminderCmp a b with _ | _ | _
    · simp
    · simp
    · right
      rw [Batteries.OrientedCmp.cmp_eq_gt.mp h]
      simp

/-- Unfolding: `reminderLe`: names strictly ascending, or equal names and
due dates not descending (undated first). -/
theorem reminderLe_iff (a b : Reminder) :
    reminderLe a b = true ↔
      (compare a.calendarName b.calendarName = .lt
        ∨ (a.calendarName = b.calendarName
            ∧ optCmp dtCmp a.dueDate b.dueDate ≠ .gt)) := by
  simp only [reminderLe, decide_eq_true_eq, reminderCmp, ne_eq, Ordering.then_eq_gt,
    not_or, not_and]
  constructor
  · intro ⟨h1, h2⟩
    rcases h : compare a.calendarName b.calendarName with _ | _ | _
    · exact Or.inl rfl
    · exact Or.inr ⟨compare_eq_iff_eq.mp h, h2 h⟩
    · exact absurd h h1
  · intro h
    rcases h with h | ⟨h1, h2⟩
    · rw [h]
      exact ⟨by simp, fun hc => by simp [h] at hc⟩
    · rw [h1]
      refine ⟨?_, fun _ => h2⟩
      rw [compare_eq_iff_eq.mpr rfl]
      simp

/-! ## The event form (`src/components/event_form.rs`) -/

/-- Rust `FormField` from `src/components/event_form.rs`. -/
inductive FormField where
  | title
  | date
  | startTime
  | endTime
  | allDay
  | calendar
deriving DecidableEq, Repr

/-- Rust `EventFormState` from `src/components/event_form.rs`. -/
structure EventFormState where
  title : String
  date : String
  startTime : String
  endTime : String
  isAllDay : Bool
  calendarIndex : Nat
  activeField : FormField
deriving DecidableEq, Repr

/-- Split a character list on a separator (the field structure of a
`%Y-%m-%d` or `%H:%M` format string). -/
def splitOnChar (sep : Char) : List Char → List (List Char)
  | [] => [[]]
  | c :: rest =>
    if c = sep then [] :: splitOnChar sep rest
    else
      match splitOnChar sep rest with
      | [] => [[c]]
      | g :: gs => (c :: g) :: gs

/-- A non-empty all-digit character group as a number. -/
def digitsToNat? (cs : List Char) : Option Nat :=
  if cs.isEmpty then none
  else
    cs.foldl (fun acc c =>
      match acc with
      | none => none
      | some n => if c.isDigit then some (n * 10 + (c.toNat - 48)) else none)
      (some 0)

/-- Modelled chrono collaborator:
`NaiveDate::parse_from_str(s, "%Y-%m-%d")` — year, month and day as
decimal fields separated by `-`, then calendar validity as in
`from_ymd_opt`.  (chrono's `%Y` also accepts signed years; the form only
ever holds unsigned ones and no claim exercises the difference.) -/
def parseYmd (s : String) : Option Date :=
  match splitOnChar ('-') s.data with
  | [ys, ms, ds] =>
    match digitsToNat? ys, digitsToNat? ms, digitsToNat? ds with
    | some y, some m, some d =>
      if 1 ≤ m ∧ m ≤ 12 ∧ 1 ≤ d ∧ d ≤ daysInMonth (y : Int) m ∧ (y : Int) ≤ 262143 then
        some ⟨(y : Int), m, d⟩
      else none
    | _, _, _ => none
  | _ => none

/-- Modelled chrono collaborator:
`NaiveTime::parse_from_str(s, "%H:%M")`. -/
def parseHm (s : String) : Option TimeO :=
  match splitOnChar (':') s.data with
  | [hs, ms] =>
    match digitsToNat? hs, digitsToNat? ms with
    | some h, some m => if h ≤ 23 ∧ m ≤ 59 then some ⟨h, m⟩ else none
    | _, _ => none
  | _ => none

/-- Rust `EventFormState::parsed_date`. -/
def EventFormState.parsedDate (f : EventFormState) : Option Date :=
  parseYmd f.date

/-- Rust `EventFormState::parsed_start_time`. -/
def EventFormState.parsedStartTime (f : EventFormState) : Option TimeO :=
  parseHm f.startTime

/-- Rust `EventFormState::parsed_end_time`. -/
def EventFormState.parsedEndTime (f : EventFormState) : Option TimeO :=
  parseHm f.endTime

/-- Rust `EventFormState::is_valid` (`src/components/event_form.rs` 113–118). -/
def EventFormState.isValid (f : EventFormState) : Bool :=
  !f.title.isEmpty && f.parsedDate.isSome
    && (f.isAllDay || (f.parsedStartTime.isSome && f.parsedEndTime.isSome))

/-! ## The data-source collaborator and the App state

`Store` (`src/calendar/store.rs`) wraps the native EventKit store; to the
core it is a synchronous collaborator, modelled as a bundle of pure query
and mutation functions (§6 of the spec).  Mutation results are
`Except String` values carrying the rendered error text.
-/

/-- The data-source collaborator as seen by `App`. -/
structure Store where
  eventsForMonth : Int → Nat → List CalendarEvent
  eventsForDate : Date → List CalendarEvent
  eventsForWeek : Date → List CalendarEvent
  fetchIncompleteReminders : List Reminder
  createEvent : String → Date → TimeO → TimeO → Bool → Option String →
    Except String Unit
  deleteEvent : String → Except String Unit
  toggleReminder : String → Except String Bool

/-- The `App` state (`src/app.rs` 32–56), minus the owned `Store` handle,
which is passed to each operation instead.  The `HashSet<u32>` marker
sets become `Finset Nat`. -/
structure AppState where
  running : Bool
  viewMode : ViewMode
  inputMode : InputMode
  selectedDate : Date
  today : Date
  calendars : List CalendarInfo
  monthEvents : List CalendarEvent
  weekEvents : List CalendarEvent
  dayEvents : List CalendarEvent
  daysWithEvents : Finset Nat
  daysWithReminders : Finset Nat
  accessGranted : Bool
  dayScroll : Nat
  reminders : List Reminder
  dayReminders : List Reminder
  formState : Option EventFormState
  detailItem : Option DayAction
  statusMessage : Option String
deriving DecidableEq

/-- Rust `App::filter_day_reminders` (`src/app.rs` 241–251): reminders due on
exactly the selected date. -/
def filterDayReminders (s : AppState) : List Reminder :=
  s.reminders.filter (fun r =>
    match r.dueDate with
    | some due => due.date = s.selectedDate
    | none => false)

/-- Rust `App::refresh_reminders` (`src/app.rs` 129–137): fetch the incomplete
reminders and sort them once. -/
def refreshReminders (store : Store) (s : AppState) : AppState :=
  { s with reminders := sortReminders store.fetchIncompleteReminders }

/-- Rust `App::refresh_events` (`src/app.rs` 94–127). -/
def refreshEvents (store : Store) (s : AppState) : AppState :=
  let year := s.selectedDate.year
  let month := s.selectedDate.month
  let s1 := { s with
    monthEvents := store.eventsForMonth year month
    dayEvents := store.eventsForDate s.selectedDate
    weekEvents := store.eventsForWeek s.selectedDate }
  let s2 := { s1 with
    daysWithEvents :=
      s1.monthEvents.foldl (fun acc ev =>
        if ev.start.date.year = year ∧ ev.start.date.month = month then
          insert ev.start.date.day acc
        else acc) ∅ }
  let s3 := refreshReminders store s2
  let s4 := { s3 with dayReminders := filterDayReminders s3 }
  let s5 := { s4 with dayScroll := 0 }
  let s6 := { s5 with
    daysWithReminders :=
      s5.reminders.foldl (fun (acc : Finset Nat) (rem : Reminder) =>
        match rem.dueDate with
        | some due =>
          if due.date.year = year ∧ due.date.month = month then
            insert due.date.day acc
          else acc
        | none => acc) ∅ }
  { s6 with dayScroll := firstActionableScroll s6.dayEvents s6.dayReminders.length }

/-- Rust `App::on_date_changed` (`src/app.rs` 485–497): full refresh when the
month (number) of the first cached month event differs from the newly
selected date's month or the cache is empty; otherwise refetch only day-
and week-scoped data and reset the cursor. -/
def onDateChanged (store : Store) (s : AppState) : AppState :=
  let oldMonth := s.monthEvents.head?.map (fun e => e.start.date.month)
  if oldMonth ≠ some s.selectedDate.month ∨ s.monthEvents.isEmpty then
    refreshEvents store s
  else
    let s1 := { s with
      dayEvents := store.eventsForDate s.selectedDate
      weekEvents := store.eventsForWeek s.selectedDate }
    let s2 := { s1 with dayReminders := filterDayReminders s1 }
    { s2 with dayScroll := firstActionableScroll s2.dayEvents s2.dayReminders.length }

/-- Rust `App::next_day` (`src/app.rs` 146–149): `succ_opt().unwrap_or(date)`. -/
def nextDay (store : Store) (s : AppState) : AppState :=
  onDateChanged store
    { s with selectedDate := (succOpt s.selectedDate).getD s.selectedDate }

/-- Rust `App::prev_day` (`src/app.rs` 151–154). -/
def prevDay (store : Store) (s : AppState) : AppState :=
  onDateChanged store
    { s with selectedDate := (predOpt s.selectedDate).getD s.selectedDate }

/-- One calendar-day step, clamped at the representable range (where
chrono's `Add<Duration>` would abort instead; no claim exercises that
boundary). -/
def stepSucc (d : Date) : Date := (succOpt d).getD d

/-- One calendar-day step backwards, clamped likewise. -/
def stepPred (d : Date) : Date := (predOpt d).getD d

/-- Rust `App::next_week` (`src/app.rs` 156–159): `+= Duration::weeks(1)`. -/
def nextWeek (store : Store) (s : AppState) : AppState :=
  onDateChanged store { s with selectedDate := stepSucc^[7] s.selectedDate }

/-- Rust `App::prev_week` (`src/app.rs` 161–164). -/
def prevWeek (store : Store) (s : AppState) : AppState :=
  onDateChanged store { s with selectedDate := stepPred^[7] s.selectedDate }

/-- Rust `App::next_month` (`src/app.rs` 166–173). -/
def nextMonth (store : Store) (s : AppState) : AppState :=
  onDateChanged store { s with selectedDate := nextMonthDate s.selectedDate }

/-- Rust `App::prev_month` (`src/app.rs` 175–182). -/
def prevMonth (store : Store) (s : AppState) : AppState :=
  onDateChanged store { s with selectedDate := prevMonthDate s.selectedDate }

/-- Rust `App::go_to_today` (`src/app.rs` 184–188); `now` is the value of
`Local::now().date_naive()`. -/
def goToToday (store : Store) (now : Date) (s : AppState) : AppState :=
  onDateChanged store { s with today := now, selectedDate := now }

/-- Rust `App::close_event_form` (`src/app.rs` 395–398). -/
def closeEventForm (s : AppState) : AppState :=
  { s with formState := none, inputMode := InputMode.normal }

/-- Rust `App::submit_event_form` (`src/app.rs` 400–432).  The `unwrap()` on
the parsed date and the `unwrap_or` defaults on the times are modelled
with `getD`; the date default is never reached because `is_valid`
guarantees the parse succeeds. -/
def submitEventForm (store : Store) (s : AppState) : AppState :=
  match s.formState with
  | none => s
  | some f =>
    if f.isValid then
      let date := f.parsedDate.getD ⟨0, 0, 0⟩
      let startTime := f.parsedStartTime.getD ⟨9, 0⟩
      let endTime := f.parsedEndTime.getD ⟨10, 0⟩
      let calId := (s.calendars.get? f.calendarIndex).map (fun c => c.id)
      match store.createEvent f.title date startTime endTime f.isAllDay calId with
      | .ok _ =>
        let s1 := { s with statusMessage := some ("Created: " ++ f.title) }
        let s2 := closeEventForm s1
        refreshEvents store s2
      | .error e => { s with statusMessage := some ("Error: " ++ e) }
    else { s with statusMessage := some ("Invalid form data") }

/-- Rust `App::toggle_day_reminder` (`src/app.rs` 353–370). -/
def toggleDayReminder (store : Store) (s : AppState) : AppState :=
  match dayActionAt s.dayEvents s.dayReminders.length s.dayScroll with
  | .reminder remIdx =>
    match s.dayReminders.get? remIdx with
    | some reminder =>
      match store.toggleReminder reminder.id with
      | .ok newState =>
        let s1 := { s with
          statusMessage :=
            some ("Reminder " ++ (if newState then "completed" else "uncompleted")) }
        let s2 := refreshReminders store s1
        { s2 with dayReminders := filterDayReminders s2 }
      | .error e => { s with statusMessage := some ("Error: " ++ e) }
    | none => s
  | _ => s

/-- Rust `App::delete_selected_event` (`src/app.rs` 464–481). -/
def deleteSelectedEvent (store : Store) (s : AppState) : AppState :=
  match dayActionAt s.dayEvents s.dayReminders.length s.dayScroll with
  | .event idx =>
    match s.dayEvents.get? idx with
    | some ev =>
      match store.deleteEvent ev.id with
      | .ok _ =>
        let s1 := { s with statusMessage := some ("Deleted: " ++ ev.title) }
        refreshEvents store s1
      | .error e => { s with statusMessage := some ("Error: " ++ e) }
    | none => s
  | _ => s

/-! ## Concrete fixtures used by witnesses and counterexamples -/

/-- A data source returning nothing and accepting every mutation. -/
def trivialStore : Store where
  eventsForMonth := fun _ _ => []
  eventsForDate := fun _ => []
  eventsForWeek := fun _ => []
  fetchIncompleteReminders := []
  createEvent := fun _ _ _ _ _ _ => .ok ()
  deleteEvent := fun _ => .ok ()
  toggleReminder := fun _ => .ok true

/-- A data source whose mutations all fail. -/
def failingStore : Store where
  eventsForMonth := fun _ _ => []
  eventsForDate := fun _ => []
  eventsForWeek := fun _ => []
  fetchIncompleteReminders := []
  createEvent := fun _ _ _ _ _ _ => .error ("boom")
  deleteEvent := fun _ => .error ("boom")
  toggleReminder := fun _ => .error ("boom")

/-- A fresh state selected on date `d`, with empty caches. -/
def someState (d : Date) : AppState where
  running := true
  viewMode := .month
  inputMode := .normal
  selectedDate := d
  today := d
  calendars := []
  monthEvents := []
  weekEvents := []
  dayEvents := []
  daysWithEvents := ∅
  daysWithReminders := ∅
  accessGranted := true
  dayScroll := 0
  reminders := []
  dayReminders := []
  formState := none
  detailItem := none
  statusMessage := none

/-- A concrete all-day event. -/
def evAllDay : CalendarEvent where
  id := "a1"
  title := "Festival"
  start := ⟨⟨2024, 5, 15⟩, 0⟩
  stop := ⟨⟨2024, 5, 15⟩, 0⟩
  isAllDay := true
  calendarName := "Cal"
  calendarColor := .white
  location := none
  notes := none

/-- A concrete timed event. -/
def evTimed : CalendarEvent where
  id := "t1"
  title := "Meeting"
  start := ⟨⟨2024, 5, 15⟩, 32400⟩
  stop := ⟨⟨2024, 5, 15⟩, 36000⟩
  isAllDay := false
  calendarName := "Cal"
  calendarColor := .white
  location := none
  notes := none

/-- A concrete reminder with a due date. -/
def remDated : Reminder where
  id := "r1"
  title := "Dated"
  isCompleted := false
  dueDate := some ⟨⟨2024, 5, 15⟩, 0⟩
  calendarName := "Cal"
  calendarColor := .white
  priority := 0

/-- A concrete reminder without a due date. -/
def remUndated : Reminder where
  id := "r2"
  title := "Undated"
  isCompleted := false
  dueDate := none
  calendarName := "Cal"
  calendarColor := .white
  priority := 0

/-! ## The claims -/

/-- C8: for every representable (year, month) pair, including leap years,
`days_in_month` — computed as first-of-next-month minus first-of-month,
with no hardcoded days-per-month table — matches the known Gregorian
calendar (Feb 29 in leap years, Feb 28 otherwise, Apr 30, and the
Dec→Jan year boundary handled by the `month == 12` branch). -/
theorem claim_C8 (year : Int) (month : Nat) (h1 : 1 ≤ month) (h2 : month ≤ 12) :
    daysInMonth year month = gregorianDaysInMonth year month :=
  daysInMonth_eq_gregorian year month h1 h2

theorem claim_C8_witness :
    daysInMonth 2024 2 = 29 ∧ daysInMonth 2023 2 = 28 ∧ daysInMonth 2024 4 = 30
      ∧ daysInMonth 2024 12 = 31 := by
  refine ⟨?_, ?_, ?_, ?_⟩
  · rw [claim_C8 2024 2 (by decide) (by decide)]
    decide
  · rw [claim_C8 2023 2 (by decide) (by decide)]
    decide
  · rw [claim_C8 2024 4 (by decide) (by decide)]
    decide
  · rw [claim_C8 2024 12 (by decide) (by decide)]
    decide

/-- C7: `next_month`/`prev_month` advance the month component, wrap the
year at the Dec↔Jan boundary, and clamp the day-of-month to
`min(original_day, days_in(new_year, new_month))`; for every valid date,
`next_month(prev_month(d))` returns to the same year and month, with the
same day-of-month unless clamping occurred (in which case the day stays
at the clamped value `days_in(prev_year, prev_month)`). -/
theorem claim_C7 (d : Date) (hv : d.ValidYmd) :
    ((nextMonthDate d).year = (if d.month = 12 then d.year + 1 else d.year)
      ∧ (nextMonthDate d).month = (if d.month = 12 then 1 else d.month + 1)
      ∧ (nextMonthDate d).day
          = min d.day (daysInMonth (nextMonthDate d).year (nextMonthDate d).month))
    ∧ ((prevMonthDate d).year = (if d.month = 1 then d.year - 1 else d.year)
      ∧ (prevMonthDate d).month = (if d.month = 1 then 12 else d.month - 1)
      ∧ (prevMonthDate d).day
          = min d.day (daysInMonth (prevMonthDate d).year (prevMonthDate d).month))
    ∧ (nextMonthDate (prevMonthDate d)).year = d.year
    ∧ (nextMonthDate (prevMonthDate d)).month = d.month
    ∧ (d.day ≤ daysInMonth (prevMonthDate d).year (prevMonthDate d).month →
        (nextMonthDate (prevMonthDate d)).day = d.day)
    ∧ (daysInMonth (prevMonthDate d).year (prevMonthDate d).month < d.day →
        (nextMonthDate (prevMonthDate d)).day
          = daysInMonth (prevMonthDate d).year (prevMonthDate d).month) := by
  obtain ⟨hm1, hm2, hd1, hd2⟩ := hv
  by_cases h1 : d.month = 1
  · have h12 : ¬ d.month = 12 := by omega
    have hyy : d.year - 1 + 1 = d.year := by ring
    rw [h1] at hd2
    simp [nextMonthDate, prevMonthDate, h1, h12, hyy]
    refine ⟨fun h => ?_, fun h => ?_⟩ <;>
      · simp only [inf_eq_min] at *
        omega
  · by_cases h12 : d.month = 12
    · have h11 : ¬ d.month - 1 = 12 := by omega
      have h111 : d.month - 1 + 1 = d.month := by omega
      rw [h12] at hd2
      simp [nextMonthDate, prevMonthDate, h12, h11, h111]
      refine ⟨fun h => ?_, fun h => ?_⟩ <;>
        · simp only [inf_eq_min] at *
          omega
    · have h11 : ¬ d.month - 1 = 12 := by omega
      have h111 : d.month - 1 + 1 = d.month := by omega
      simp [nextMonthDate, prevMonthDate, h1, h12, h11, h111]
      refine ⟨fun h => ?_, fun h => ?_⟩ <;>
        · simp only [inf_eq_min] at *
          omega

theorem claim_C7_witness :
    (nextMonthDate (prevMonthDate ⟨2024, 5, 15⟩)).year = 2024
      ∧ (nextMonthDate (prevMonthDate ⟨2024, 5, 15⟩)).month = 5
      ∧ (nextMonthDate (prevMonthDate ⟨2024, 5, 15⟩)).day = 15
      ∧ (nextMonthDate (prevMonthDate ⟨2024, 3, 31⟩)).day = 29 := by
  have h1 := claim_C7 ⟨2024, 5, 15⟩ (by decide)
  have h2 := claim_C7 ⟨2024, 3, 31⟩ (by decide)
  refine ⟨h1.2.2.1, h1.2.2.2.1, ?_, ?_⟩
  · exact h1.2.2.2.2.1 (by decide)
  · rw [h2.2.2.2.2.2 (by decide)]
    decide

/-- Neither refresh path touches the selected date. -/
theorem onDateChanged_selectedDate (store : Store) (s : AppState) :
    (onDateChanged store s).selectedDate = s.selectedDate := by
  unfold onDateChanged refreshEvents refreshReminders
  dsimp only
  split <;> rfl

/-- C9: `next_day` and `prev_day` always succeed: they move the selected
date to its calendar successor (resp. predecessor) when the date type can
represent it, and are a no-op on the selected date otherwise — the
`unwrap_or(self.selected_date)` fallback; the operations are total. -/
theorem claim_C9 (store : Store) (s : AppState) :
    ((succOpt s.selectedDate).isNone →
      (nextDay store s).selectedDate = s.selectedDate)
    ∧ (∀ d, succOpt s.selectedDate = some d →
        (nextDay store s).selectedDate = d)
    ∧ ((predOpt s.selectedDate).isNone →
      (prevDay store s).selectedDate = s.selectedDate)
    ∧ (∀ d, predOpt s.selectedDate = some d →
        (prevDay store s).selectedDate = d) := by
  refine ⟨?_, ?_, ?_, ?_⟩
  · intro h
    unfold nextDay
    rw [onDateChanged_selectedDate]
    cases hs : succOpt s.selectedDate with
    | none => simp
    | some d => rw [hs] at h; cases h
  · intro d hd
    unfold nextDay
    rw [onDateChanged_selectedDate]
    simp [hd]
  · intro h
    unfold prevDay
    rw [onDateChanged_selectedDate]
    cases hs : predOpt s.selectedDate with
    | none => simp
    | some d => rw [hs] at h; cases h
  · intro d hd
    unfold prevDay
    rw [onDateChanged_selectedDate]
    simp [hd]

theorem claim_C9_witness :
    (nextDay trivialStore (someState Date.maxDate)).selectedDate = Date.maxDate
    ∧ (nextDay trivialStore (someState ⟨2024, 5, 15⟩)).selectedDate = ⟨2024, 5, 16⟩
    ∧ (prevDay trivialStore (someState Date.minDate)).selectedDate = Date.minDate
    ∧ (prevDay trivialStore (someState ⟨2024, 5, 15⟩)).selectedDate = ⟨2024, 5, 14⟩ := by
  refine ⟨?_, ?_, ?_, ?_⟩
  · exact (claim_C9 trivialStore (someState Date.maxDate)).1 (by decide)
  · exact (claim_C9 trivialStore (someState ⟨2024, 5, 15⟩)).2.1 ⟨2024, 5, 16⟩ (by decide)
  · exact (claim_C9 trivialStore (someState Date.minDate)).2.2.1 (by decide)
  · exact (claim_C9 trivialStore (someState ⟨2024, 5, 15⟩)).2.2.2 ⟨2024, 5, 14⟩ (by decide)

/-- C1: `day_list_len()` equals the number of rows the fixed
section-order compositor produces; `day_action_at(i)` returns exactly the
action of row `i` (so never an item action on a header or spacer row);
and iterating `i` over `0..day_list_len()` recovers as (kind, index)
pairs exactly the all-day event indices, then every reminder index
`0..rems` once, then the timed event indices — with the all-day and timed
indices together a permutation of all event indices, so each input event
and reminder appears exactly once. -/
theorem claim_C1 (evs : List CalendarEvent) (rems : Nat) :
    dayListLen evs rems = (dayRows evs rems).length
    ∧ (∀ scroll, dayActionAt evs rems scroll
        = match (dayRows evs rems).get? scroll with
          | some r => rowToAction r
          | none => DayAction.none)
    ∧ recoveredActions evs rems
        = (allDayIndices evs).map DayAction.event
          ++ (List.range rems).map DayAction.reminder
          ++ (timedIndices evs).map DayAction.event
    ∧ (allDayIndices evs ++ timedIndices evs).Perm (List.range evs.length) := by
  refine ⟨dayListLen_eq evs rems, ?_, recoveredActions_eq evs rems,
    allDay_timed_perm evs⟩
  intro scroll
  rw [dayActionAt_eq]
  unfold lookupRows
  rw [if_pos (Nat.zero_le scroll), Nat.sub_zero]

/-- Every row of the composed day list is a header, a spacer, an event
row for one of the day's event indices, or a reminder row with an index
below the reminder count. -/
theorem mem_dayRows (evs : List CalendarEvent) (rems : Nat) (r : DayRow)
    (hr : r ∈ dayRows evs rems) :
    r = DayRow.header ∨ r = DayRow.spacer
    ∨ (∃ i, r = DayRow.eventRow i ∧ (i ∈ allDayIndices evs ∨ i ∈ timedIndices evs))
    ∨ (∃ j, r = DayRow.reminderRow j ∧ j < rems) := by
  unfold dayRows allDaySectionRows remsSectionRows at hr
  dsimp only at hr
  split_ifs at hr <;>
    simp only [List.mem_append, List.mem_cons, List.mem_map, List.mem_singleton,
      List.not_mem_nil, List.mem_range] at hr <;>
    aesop

/-- Helper for C10: an event action's index is one of the day's event
indices. -/
theorem dayActionAt_event_mem (evs : List CalendarEvent) (rems scroll i : Nat)
    (h : dayActionAt evs rems scroll = .event i) :
    i ∈ allDayIndices evs ∨ i ∈ timedIndices evs := by
  rw [dayActionAt_eq] at h
  unfold lookupRows at h
  rw [if_pos (Nat.zero_le scroll), Nat.sub_zero] at h
  rcases hg : (dayRows evs rems).get? scroll with _ | r
  · rw [hg] at h
    cases h
  · rw [hg] at h
    rw [List.get?_eq_getElem?] at hg
    have hr := mem_dayRows evs rems r (List.getElem?_mem hg)
    rcases hr with hr | hr | ⟨k, rfl, hk⟩ | ⟨k, rfl, hk⟩
    · subst hr; cases h
    · subst hr; cases h
    · cases h; exact hk
    · cases h

/-- Helper for C10: a reminder action's index is below the reminder
count. -/
theorem dayActionAt_reminder_lt (evs : List CalendarEvent) (rems scroll j : Nat)
    (h : dayActionAt evs rems scroll = .reminder j) : j < rems := by
  rw [dayActionAt_eq] at h
  unfold lookupRows at h
  rw [if_pos (Nat.zero_le scroll), Nat.sub_zero] at h
  rcases hg : (dayRows evs rems).get? scroll with _ | r
  · rw [hg] at h
    cases h
  · rw [hg] at h
    rw [List.get?_eq_getElem?] at hg
    have hr := mem_dayRows evs rems r (List.getElem?_mem hg)
    rcases hr with hr | hr | ⟨k, rfl, hk⟩ | ⟨k, rfl, hk⟩
    · subst hr; cases h
    · subst hr; cases h
    · cases h
    · cases h; exact hk

/-- C10: every item action `day_action_at` produces is in bounds — an
`Event i` has `i < day_events.len()` and a `Reminder j` has
`j < day_reminders.len()` — so the `get` lookups in
`delete_selected_event` and `toggle_day_reminder` always succeed for the
action at any cursor position. -/
theorem claim_C10 (evs : List CalendarEvent) (drs : List Reminder) (scroll : Nat) :
    match dayActionAt evs drs.length scroll with
    | .event i => i < evs.length ∧ (evs.get? i).isSome
    | .reminder j => j < drs.length ∧ (drs.get? j).isSome
    | .none => True := by
  rcases h : dayActionAt evs drs.length scroll with _ | i | j
  · trivial
  · have hb : i < evs.length := by
      rcases dayActionAt_event_mem evs drs.length scroll i h with hm | hm
      · exact mem_allDayIndices_lt evs i hm
      · exact mem_timedIndices_lt evs i hm
    refine ⟨hb, ?_⟩
    rw [List.get?_eq_getElem?, List.getElem?_eq_getElem hb]
    rfl
  · have hb : j < drs.length := dayActionAt_reminder_lt evs drs.length scroll j h
    refine ⟨hb, ?_⟩
    rw [List.get?_eq_getElem?, List.getElem?_eq_getElem hb]
    rfl

/-- C2: the cursor operations keep the cursor in `[0, day_list_len())`
(when it starts there), never leave it on a non-actionable row when it
starts on an actionable one (and first-actionable initialization lands on
an actionable row whenever one exists), and do not wrap: advancing with
nothing actionable below, or decrementing with nothing actionable above,
is a no-op. -/
theorem claim_C2 (evs : List CalendarEvent) (rems scroll : Nat) :
    (scroll < dayListLen evs rems →
      scrollDayDown evs rems scroll < dayListLen evs rems)
    ∧ (scroll < dayListLen evs rems →
      scrollDayUp evs rems scroll < dayListLen evs rems)
    ∧ (¬ dayActionAt evs rems scroll = DayAction.none →
      ¬ dayActionAt evs rems (scrollDayDown evs rems scroll) = DayAction.none)
    ∧ (¬ dayActionAt evs rems scroll = DayAction.none →
      ¬ dayActionAt evs rems (scrollDayUp evs rems scroll) = DayAction.none)
    ∧ ((∃ j, j < dayListLen evs rems ∧ ¬ dayActionAt evs rems j = DayAction.none) →
      ¬ dayActionAt evs rems (firstActionableScroll evs rems) = DayAction.none)
    ∧ ((∀ j, scroll < j → j < dayListLen evs rems →
        dayActionAt evs rems j = DayAction.none) →
      scrollDayDown evs rems scroll = scroll)
    ∧ ((∀ j, j < scroll → dayActionAt evs rems j = DayAction.none) →
      scrollDayUp evs rems scroll = scroll) := by
  refine ⟨?_, ?_, ?_, ?_, ?_, ?_, ?_⟩
  · intro h
    unfold scrollDayDown
    dsimp only
    split
    · exact h
    · split
      · assumption
      · exact h
  · intro h
    unfold scrollDayUp
    split
    · exact h
    · rcases hb : skipBackward evs rems (scroll - 1) with _ | p
      · exact h
      · have := (skipBackward_some evs rems (scroll - 1) p hb).1
        show p < dayListLen evs rems
        omega
  · intro h
    unfold scrollDayDown
    dsimp only
    split
    · exact h
    · split
      · exact skipForward_actionable evs rems (dayListLen evs rems) (scroll + 1)
          (by assumption)
      · exact h
  · intro h
    unfold scrollDayUp
    split
    · exact h
    · rcases hb : skipBackward evs rems (scroll - 1) with _ | p
      · exact h
      · exact (skipBackward_some evs rems (scroll - 1) p hb).2
  · intro ⟨j, hj1, hj2⟩
    exact (firstActionableFrom_spec evs rems (dayListLen evs rems) 0
      ⟨j, Nat.zero_le j, hj1, hj2⟩).2
  · intro h
    unfold scrollDayDown
    dsimp only
    split
    · rfl
    · have := skipForward_all_none evs rems (dayListLen evs rems) (scroll + 1)
        (fun j h1 h2 => h j (by omega) h2)
      rw [if_neg (by omega)]
  · intro h
    unfold scrollDayUp
    split
    · rfl
    · rw [skipBackward_none_of evs rems (scroll - 1)
        (fun j hj => h j (by omega))]

theorem claim_C2_witness :
    scrollDayDown [evAllDay, evTimed] 1 1 < dayListLen [evAllDay, evTimed] 1
    ∧ scrollDayUp [evAllDay, evTimed] 1 4 < dayListLen [evAllDay, evTimed] 1
    ∧ ¬ dayActionAt [evAllDay, evTimed] 1
        (scrollDayDown [evAllDay, evTimed] 1 1) = DayAction.none
    ∧ ¬ dayActionAt [evAllDay, evTimed] 1
        (scrollDayUp [evAllDay, evTimed] 1 4) = DayAction.none
    ∧ ¬ dayActionAt [evAllDay, evTimed] 1
        (firstActionableScroll [evAllDay, evTimed] 1) = DayAction.none
    ∧ scrollDayDown [evAllDay, evTimed] 1 6 = 6
    ∧ scrollDayUp [evAllDay, evTimed] 1 1 = 1 := by
  have hc := claim_C2 [evAllDay, evTimed] 1
  refine ⟨(hc 1).1 (by decide), (hc 4).2.1 (by decide), (hc 1).2.2.1 (by decide),
    (hc 4).2.2.2.1 (by decide), (hc 0).2.2.2.2.1 ⟨1, by decide, by decide⟩,
    (hc 6).2.2.2.2.2.1 ?_, (hc 1).2.2.2.2.2.2 ?_⟩
  · intro j h1 h2
    have hlen : dayListLen [evAllDay, evTimed] 1 = 7 := by decide
    rw [hlen] at h2
    omega
  · intro j h1
    have hj : j = 0 := by omega
    subst hj
    decide

/-- Sanity checks mirroring the worked scenarios in the spec: a day with
2 all-day events, 1 reminder and 3 timed events has 10 rows; a day with
no events and 1 reminder has 2 rows, a header at 0 and the reminder
at 1. -/
theorem dayList_scenarios :
    dayListLen [evAllDay, { evAllDay with id := "a2" }, evTimed,
        { evTimed with id := "t2" }, { evTimed with id := "t3" }] 1 = 10
    ∧ dayListLen [] 1 = 2
    ∧ dayActionAt [] 1 0 = DayAction.none
    ∧ dayActionAt [] 1 1 = DayAction.reminder 0
    ∧ dayActionAt [evAllDay, evTimed] 1 0 = DayAction.none
    ∧ dayActionAt [evAllDay, evTimed] 1 1 = DayAction.event 0
    ∧ dayActionAt [evAllDay, evTimed] 1 4 = DayAction.reminder 0
    ∧ dayActionAt [evAllDay, evTimed] 1 6 = DayAction.event 1 := by
  refine ⟨by decide, by decide, by decide, by decide, by decide, by decide,
    by decide, by decide⟩

/-- C4 counterexample: with two reminders of the same calendar, one dated
and one undated, the sort of `refresh_reminders` puts the UNDATED one
first — Rust's `Option` ordering sorts `None` before `Some` — so undated
reminders are ordered before dated ones, not after. -/
theorem claim_C4_counterexample :
    sortReminders [remDated, remUndated] = [remUndated, remDated]
    ∧ remDated.dueDate = some ⟨⟨2024, 5, 15⟩, 0⟩
    ∧ remUndated.dueDate = none
    ∧ remDated.calendarName = remUndated.calendarName
    ∧ remUndated ≠ remDated := by
  have hle : reminderLe remDated remUndated = false := by decide
  refine ⟨?_, rfl, rfl, rfl, by decide⟩
  simp [sortReminders, List.mergeSort, hle]

/-- C4 (amended): after each fetch the incomplete-reminder set is sorted
exactly once by calendar name (primary) then due date (secondary), with
undated reminders (`due_date` absent) ordered BEFORE dated ones (Rust's
`Option` ordering); the day view filters this sorted list to exactly the
reminders due on the selected date, preserving the order (a `filter`). -/
theorem claim_C4_amended (store : Store) (s : AppState) :
    (refreshEvents store s).reminders = sortReminders store.fetchIncompleteReminders
    ∧ (refreshReminders store s).reminders
        = sortReminders store.fetchIncompleteReminders
    ∧ (sortReminders store.fetchIncompleteReminders).Perm
        store.fetchIncompleteReminders
    ∧ (sortReminders store.fetchIncompleteReminders).Pairwise
        (fun a b => reminderLe a b = true)
    ∧ (sortReminders store.fetchIncompleteReminders).Pairwise (fun a b =>
        compare a.calendarName b.calendarName = .lt
        ∨ (a.calendarName = b.calendarName
            ∧ optCmp dtCmp a.dueDate b.dueDate ≠ .gt))
    ∧ (∀ t, optCmp dtCmp none (some t) = .lt)
    ∧ (refreshEvents store s).dayReminders
        = (refreshEvents store s).reminders.filter (fun r =>
            match r.dueDate with
            | some due => due.date = s.selectedDate
            | none => false) := by
  refine ⟨rfl, rfl, sortReminders_perm _, sortReminders_sorted _, ?_, fun t => rfl, rfl⟩
  exact (sortReminders_sorted _).imp (fun h => (reminderLe_iff _ _).mp h)

/-- C6: `submit_event_form` validates (non-empty title, parseable date,
and — unless all-day — parseable start and end times, via `is_valid`)
before any data-source call.  For every invalid form the result is the
input state with only the status message set — for every store, so the
store's create operation can not have been called — leaving `form_state`
and `input_mode` unchanged; in particular an empty title always fails
validation. -/
theorem claim_C6 (store : Store) (s : AppState) (f : EventFormState)
    (hf : s.formState = some f) (hv : f.isValid = false) :
    submitEventForm store s = { s with statusMessage := some ("Invalid form data") }
    ∧ (submitEventForm store s).formState = s.formState
    ∧ (submitEventForm store s).inputMode = s.inputMode
    ∧ (∀ g : EventFormState, g.title = "" → g.isValid = false) := by
  have h1 : submitEventForm store s
      = { s with statusMessage := some ("Invalid form data") } := by
    unfold submitEventForm
    rw [hf]
    show (if f.isValid then _ else _) = _
    rw [hv]
    rfl
  refine ⟨h1, by rw [h1], by rw [h1], ?_⟩
  intro g hg
  unfold EventFormState.isValid
  rw [hg]
  rfl

/-- The open state used to witness C6: a form with an empty title and
otherwise parseable fields. -/
def emptyTitleForm : EventFormState where
  title := ""
  date := "2024-05-15"
  startTime := "09:00"
  endTime := "10:00"
  isAllDay := false
  calendarIndex := 0
  activeField := .title

theorem claim_C6_witness :
    submitEventForm trivialStore
        { someState ⟨2024, 5, 15⟩ with
          formState := some emptyTitleForm, inputMode := .form }
      = { someState ⟨2024, 5, 15⟩ with
          formState := some emptyTitleForm
          inputMode := .form
          statusMessage := some ("Invalid form data") }
    ∧ (submitEventForm trivialStore
        { someState ⟨2024, 5, 15⟩ with
          formState := some emptyTitleForm, inputMode := .form }).formState
      = some emptyTitleForm := by
  have h := claim_C6 trivialStore
    { someState ⟨2024, 5, 15⟩ with
      formState := some emptyTitleForm, inputMode := .form }
    emptyTitleForm rfl (by decide)
  exact ⟨h.1, by rw [h.2.1]⟩

/-- C5: every mutating operation that fails at the data source — the
toggle of `toggle_day_reminder`, the delete of `delete_selected_event`,
and the create of `submit_event_form` — leaves the state exactly as it
was except for the human-readable `Error: …` status message: all cached
lists, marker sets, the cursor and the form are untouched. -/
theorem claim_C5 (store : Store) (s : AppState) :
    (∀ j r e,
      dayActionAt s.dayEvents s.dayReminders.length s.dayScroll = .reminder j →
      s.dayReminders.get? j = some r →
      store.toggleReminder r.id = .error e →
      toggleDayReminder store s = { s with statusMessage := some ("Error: " ++ e) })
    ∧ (∀ i ev e,
      dayActionAt s.dayEvents s.dayReminders.length s.dayScroll = .event i →
      s.dayEvents.get? i = some ev →
      store.deleteEvent ev.id = .error e →
      deleteSelectedEvent store s
        = { s with statusMessage := some ("Error: " ++ e) })
    ∧ (∀ f e, s.formState = some f → f.isValid = true →
      store.createEvent f.title (f.parsedDate.getD ⟨0, 0, 0⟩)
          (f.parsedStartTime.getD ⟨9, 0⟩) (f.parsedEndTime.getD ⟨10, 0⟩)
          f.isAllDay ((s.calendars.get? f.calendarIndex).map (fun c => c.id))
        = .error e →
      submitEventForm store s
        = { s with statusMessage := some ("Error: " ++ e) }) := by
  refine ⟨?_, ?_, ?_⟩
  · intro j r e h1 h2 h3
    unfold toggleDayReminder
    rw [h1]
    show (match s.dayReminders.get? j with
      | some reminder => _
      | none => s) = _
    rw [h2]
    show (match store.toggleReminder r.id with
      | .ok newState => _
      | .error e => _) = _
    rw [h3]
  · intro i ev e h1 h2 h3
    unfold deleteSelectedEvent
    rw [h1]
    show (match s.dayEvents.get? i with
      | some ev => _
      | none => s) = _
    rw [h2]
    show (match store.deleteEvent ev.id with
      | .ok _ => _
      | .error e => _) = _
    rw [h3]
  · intro f e hf hv h3
    unfold submitEventForm
    rw [hf]
    show (if f.isValid then _ else _) = _
    rw [hv]
    show (match store.createEvent f.title (f.parsedDate.getD ⟨0, 0, 0⟩)
        (f.parsedStartTime.getD ⟨9, 0⟩) (f.parsedEndTime.getD ⟨10, 0⟩)
        f.isAllDay ((s.calendars.get? f.calendarIndex).map (fun c => c.id)) with
      | .ok _ => _
      | .error e => _) = _
    rw [h3]

/-- A valid form used to witness C5's create branch. -/
def validForm : EventFormState where
  title := "Lunch"
  date := "2024-05-15"
  startTime := "09:00"
  endTime := "10:00"
  isAllDay := false
  calendarIndex := 0
  activeField := .title

theorem claim_C5_witness :
    toggleDayReminder failingStore
        { someState ⟨2024, 5, 15⟩ with dayReminders := [remDated], dayScroll := 1 }
      = { someState ⟨2024, 5, 15⟩ with
          dayReminders := [remDated]
          dayScroll := 1
          statusMessage := some ("Error: " ++ "boom") }
    ∧ deleteSelectedEvent failingStore
        { someState ⟨2024, 5, 15⟩ with dayEvents := [evTimed], dayScroll := 0 }
      = { someState ⟨2024, 5, 15⟩ with
          dayEvents := [evTimed]
          dayScroll := 0
          statusMessage := some ("Error: " ++ "boom") }
    ∧ submitEventForm failingStore
        { someState ⟨2024, 5, 15⟩ with formState := some validForm }
      = { someState ⟨2024, 5, 15⟩ with
          formState := some validForm
          statusMessage := some ("Error: " ++ "boom") } := by
  refine ⟨?_, ?_, ?_⟩
  · exact (claim_C5 failingStore _).1 0 remDated ("boom") (by decide) (by decide) rfl
  · exact (claim_C5 failingStore _).2.1 0 evTimed ("boom") (by decide) (by decide) rfl
  · exact (claim_C5 failingStore _).2.2 validForm ("boom") rfl (by decide) rfl

/-- A March 2025 event, for the C3 fixtures. -/
def evMar2025 : CalendarEvent :=
  { evTimed with id := "m25", start := ⟨⟨2025, 3, 5⟩, 0⟩, stop := ⟨⟨2025, 3, 5⟩, 3600⟩ }

/-- A March 2024 event, for the C3 fixtures. -/
def evMar2024 : CalendarEvent :=
  { evTimed with id := "m24", start := ⟨⟨2024, 3, 5⟩, 0⟩, stop := ⟨⟨2024, 3, 5⟩, 3600⟩ }

/-- A data source whose month query distinguishes the year. -/
def monthStore : Store :=
  { trivialStore with
    eventsForMonth := fun y _ => if y = 2025 then [evMar2025] else [evMar2024] }

/-- C3 counterexample: with the month cache built for March 2025
(selected date 2025-03-10), `go_to_today` to 2024-03-15 changes the
selected month — March 2025 to March 2024 — yet the cheap day-only path
is taken: the month cache still holds the March-2025 events, while a full
`refresh_events()` would have fetched the March-2024 ones.  The dispatch
compares only month-of-year numbers, not the year. -/
theorem claim_C3_counterexample :
    (refreshEvents monthStore (someState ⟨2025, 3, 10⟩)).monthEvents = [evMar2025]
    ∧ (goToToday monthStore ⟨2024, 3, 15⟩
        (refreshEvents monthStore (someState ⟨2025, 3, 10⟩))).selectedDate
      = ⟨2024, 3, 15⟩
    ∧ (goToToday monthStore ⟨2024, 3, 15⟩
        (refreshEvents monthStore (someState ⟨2025, 3, 10⟩))).monthEvents
      = [evMar2025]
    ∧ (refreshEvents monthStore
        { refreshEvents monthStore (someState ⟨2025, 3, 10⟩) with
          selectedDate := ⟨2024, 3, 15⟩
          today := ⟨2024, 3, 15⟩ }).monthEvents = [evMar2024]
    ∧ evMar2025 ≠ evMar2024 := by
  refine ⟨rfl, ?_, ?_, rfl, by decide⟩
  · unfold goToToday
    rw [onDateChanged_selectedDate]
  · rfl

/-- C3 (amended): `on_date_changed` runs the full `refresh_events()`
exactly when the month cache is empty or the month-of-year NUMBER of the
first cached month event differs from the newly selected date's month
number; the year is never compared.  Under the data-source contract that
the month cache holds only events of the month it was fetched for
(modelled from the spec: "`month_events` (all events whose start falls in
the active year/month)"), a nonempty cache for (y0, m0) therefore takes
the cheap path whenever m0 equals the new month number — even when the
year differs, as `go_to_today` across years shows — refetching only day-
and week-scoped data, re-filtering the day reminders from the cached
sorted set, and resetting the cursor, while the month cache, the marker
sets and the reminder cache stay as they were. -/
theorem claim_C3_amended (store : Store) (s : AppState) (y0 : Int) (m0 : Nat)
    (hscope : ∀ e ∈ s.monthEvents,
      e.start.date.year = y0 ∧ e.start.date.month = m0) :
    (s.monthEvents = [] → onDateChanged store s = refreshEvents store s)
    ∧ (s.monthEvents ≠ [] → m0 ≠ s.selectedDate.month →
        onDateChanged store s = refreshEvents store s)
    ∧ (s.monthEvents ≠ [] → m0 = s.selectedDate.month →
        (onDateChanged store s).monthEvents = s.monthEvents
        ∧ (onDateChanged store s).daysWithEvents = s.daysWithEvents
        ∧ (onDateChanged store s).daysWithReminders = s.daysWithReminders
        ∧ (onDateChanged store s).reminders = s.reminders
        ∧ (onDateChanged store s).dayEvents = store.eventsForDate s.selectedDate
        ∧ (onDateChanged store s).weekEvents = store.eventsForWeek s.selectedDate
        ∧ (onDateChanged store s).dayReminders
            = s.reminders.filter (fun r =>
                match r.dueDate with
                | some due => due.date = s.selectedDate
                | none => false)
        ∧ (onDateChanged store s).selectedDate = s.selectedDate) := by
  refine ⟨?_, ?_, ?_⟩
  · intro h
    unfold onDateChanged
    rw [if_pos]
    right
    rw [h]
    rfl
  · intro hne hm
    unfold onDateChanged
    rw [if_pos]
    left
    rcases hl : s.monthEvents with _ | ⟨e, rest⟩
    · exact absurd hl hne
    · have he := (hscope e (by rw [hl]; exact List.mem_cons_self e rest)).2
      show ¬ some e.start.date.month = some s.selectedDate.month
      intro hc
      injection hc with h
      rw [he] at h
      exact hm h
  · intro hne hm
    have hcond : ¬ ((s.monthEvents.head?.map (fun e => e.start.date.month)
        ≠ some s.selectedDate.month) ∨ s.monthEvents.isEmpty) := by
      rcases hl : s.monthEvents with _ | ⟨e, rest⟩
      · exact absurd hl hne
      · have he := (hscope e (by rw [hl]; exact List.mem_cons_self e rest)).2
        push_neg
        constructor
        · show some e.start.date.month = some s.selectedDate.month
          rw [he, hm]
        · simp
    unfold onDateChanged
    rw [if_neg hcond]
    exact ⟨rfl, rfl, rfl, rfl, rfl, rfl, rfl, rfl⟩

theorem claim_C3_amended_witness :
    (onDateChanged monthStore
        { refreshEvents monthStore (someState ⟨2025, 3, 10⟩) with
          selectedDate := ⟨2024, 3, 15⟩ }).monthEvents = [evMar2025]
    ∧ (onDateChanged monthStore
        { refreshEvents monthStore (someState ⟨2025, 3, 10⟩) with
          selectedDate := ⟨2025, 4, 10⟩ })
      = refreshEvents monthStore
          { refreshEvents monthStore (someState ⟨2025, 3, 10⟩) with
            selectedDate := ⟨2025, 4, 10⟩ } := by
  constructor
  · have hscope : ∀ e ∈ ({ refreshEvents monthStore (someState ⟨2025, 3, 10⟩) with
        selectedDate := (⟨2024, 3, 15⟩ : Date) } : AppState).monthEvents,
        e.start.date.year = 2025 ∧ e.start.date.month = 3 := by
      intro e he
      have he2 : e ∈ [evMar2025] := he
      rcases List.mem_singleton.mp he2 with rfl
      exact ⟨rfl, rfl⟩
    exact ((claim_C3_amended monthStore _ 2025 3 hscope).2.2
      (List.cons_ne_nil evMar2025 []) rfl).1
  · rfl

end CalTui
